import Mathlib

/-!
Verification development for the fast-api-search-mcp repository.

The repository exposes two priced MCP tools (`search_fastapi_docs`, cost 3,
and `search_fastapi_examples`, cost 4) implementing the pipeline
balance-check → backend query → sanitize/redact → validate → idempotent debit.
`src/server.ts` (the tool handlers and the `hasPotentialPII` pre-filter) is
embedded directly from the source.  The helper modules it imports
(`tokenConsumption.ts`, `tokenUtils.ts`, and the `pilpat-mcp-security`
package) are not part of the shipped sources; their operations are modelled
from the specification, as indicated in their doc comments.
-/

/-! ## Basic character-list utilities -/

/-- Membership of a character in a character list. -/
def containsChar (cs : List Char) (c : Char) : Bool :=
  cs.any (fun d => d = c)

/-- Whether `pat` occurs as a leading segment of `cs`. -/
def startsWithSeq : List Char → List Char → Bool
  | [], _ => true
  | _ :: _, [] => false
  | p :: ps, c :: cs => p = c && startsWithSeq ps cs

/-- Whether `pat` occurs as a contiguous subsequence anywhere in the text. -/
def occursIn (pat : List Char) : List Char → Bool
  | [] => startsWithSeq pat []
  | c :: cs => startsWithSeq pat (c :: cs) || occursIn pat cs

/-- Substring test lifted to strings. -/
def strOccurs (pat t : String) : Bool :=
  occursIn pat.toList t.toList

/-- Number of decimal digit characters in a list. -/
def countDigits (cs : List Char) : Nat :=
  (cs.filter Char.isDigit).length

/-- Truncation of a string to its first `n` characters
(the embedding of JavaScript `substring(0, n)`). -/
def truncTo (n : Nat) (t : String) : String :=
  String.mk (t.toList.take n)

/-- Consume exactly `n` digit characters, returning the remaining text. -/
def takeDigits : Nat → List Char → Option (List Char)
  | 0, cs => some cs
  | _ + 1, [] => none
  | n + 1, c :: cs => if c.isDigit then takeDigits n cs else none

/-- Consume exactly `n` uppercase A-Z characters, returning the remaining text. -/
def takeUppers : Nat → List Char → Option (List Char)
  | 0, cs => some cs
  | _ + 1, [] => none
  | n + 1, c :: cs => if c.isUpper then takeUppers n cs else none

/-- Consume exactly one expected character. -/
def expectChar (c : Char) : List Char → Option (List Char)
  | [] => none
  | d :: cs => if d = c then some cs else none

/-! ## The `hasPotentialPII` pre-filter, embedded from `src/server.ts` lines 21-44.

JavaScript regular expressions over the text are embedded as executable
position-wise matchers: `anyPos p cs` is the unanchored search
(the regex `test`), and each `pNAt` recognises pattern `N` at a fixed
position, with optional pieces tried both ways. -/

/-- Whitespace class used by the simplified regex separators (JS `\s`). -/
def isWsChar (c : Char) : Bool :=
  c = ' ' || c = '\t' || c = '\n' || c = '\r'

/-- Separator class `[-.\s]` of the SSN-like simplified pattern. -/
def isSepDotDashWs (c : Char) : Bool :=
  c = '-' || c = '.' || isWsChar c

/-- Separator class `[-\s]` of the card-like and bank-like simplified patterns. -/
def isSepDashWs (c : Char) : Bool :=
  c = '-' || isWsChar c

/-- Character class `[\d\s()-]` of the phone-like simplified pattern. -/
def isPhoneClassChar (c : Char) : Bool :=
  c.isDigit || isWsChar c || c = '(' || c = ')' || c = '-'

/-- Continuation after an optional single separator character
(both the empty and the one-character reading of `X?` are tried). -/
def optSepThen (sep : Char → Bool) (k : List Char → Bool) (cs : List Char) : Bool :=
  k cs ||
    (match cs with
     | c :: r => sep c && k r
     | [] => false)

/-- Continuation after exactly `n` digit characters. -/
def thenDigits (n : Nat) (k : List Char → Bool) (cs : List Char) : Bool :=
  match takeDigits n cs with
  | none => false
  | some r => k r

/-- Simplified pattern 1 at a position: `\d{3}[-.\s]?\d{2}[-.\s]?\d{4}` (SSN-like). -/
def p1At : List Char → Bool :=
  thenDigits 3 (optSepThen isSepDotDashWs (thenDigits 2 (optSepThen isSepDotDashWs
    (thenDigits 4 (fun _ => true)))))

/-- Simplified pattern 2 at a position:
`\d{4}[-\s]?\d{4}[-\s]?\d{4}[-\s]?\d{4}` (credit-card-like). -/
def p2At : List Char → Bool :=
  thenDigits 4 (optSepThen isSepDashWs (thenDigits 4 (optSepThen isSepDashWs
    (thenDigits 4 (optSepThen isSepDashWs (thenDigits 4 (fun _ => true)))))))

/-- Simplified pattern 3 at a position: `\d{11}` (PESEL-like). -/
def p3At : List Char → Bool :=
  thenDigits 11 (fun _ => true)

/-- Simplified pattern 4 at a position: `\+?[\d\s()-]{10,}` (phone-like). -/
def p4At (cs : List Char) : Bool :=
  match cs with
  | '+' :: r => 10 ≤ (List.takeWhile isPhoneClassChar r).length ||
      10 ≤ (List.takeWhile isPhoneClassChar cs).length
  | _ => 10 ≤ (List.takeWhile isPhoneClassChar cs).length

/-- Simplified pattern 5 at a position: `\d{2}[-\s]?\d{4,}` (bank-account-like). -/
def p5At : List Char → Bool :=
  thenDigits 2 (optSepThen isSepDashWs
    (fun r => 4 ≤ (List.takeWhile Char.isDigit r).length))

/-- Simplified pattern 6 at a position: `[A-Z]{3}\d{6}` (Polish-passport-like). -/
def p6At (cs : List Char) : Bool :=
  match takeUppers 3 cs with
  | none => false
  | some r => (takeDigits 6 r).isSome

/-- Unanchored search: does `p` hold at some position of the text? -/
def anyPos (p : List Char → Bool) : List Char → Bool
  | [] => p []
  | c :: cs => p (c :: cs) || anyPos p cs

/-- The disjunction `patterns.some(pattern => pattern.test(text))` over the six
simplified regexes of `hasPotentialPII`. -/
def simplifiedPatternsMatch (cs : List Char) : Bool :=
  anyPos p1At cs || anyPos p2At cs || anyPos p3At cs ||
    anyPos p4At cs || anyPos p5At cs || anyPos p6At cs

/-- Quick heuristic `hasAtSymbol` of `hasPotentialPII`. -/
def hasAtSymbol (cs : List Char) : Bool :=
  containsChar cs '@'

/-- Quick heuristic `hasMultipleDashes` of `hasPotentialPII`:
`text.includes('---') || text.includes('--')`. -/
def hasMultipleDashes (cs : List Char) : Bool :=
  occursIn ['-', '-', '-'] cs || occursIn ['-', '-'] cs

/-- Quick heuristic `hasMultipleDigits` of `hasPotentialPII`:
more than 10 digit characters. -/
def hasMultipleDigits (cs : List Char) : Bool :=
  decide (countDigits cs > 10)

/-- Embedding of `hasPotentialPII` (`src/server.ts` lines 21-44): if none of the
three quick heuristics fires the function returns `false` without running the
simplified regexes; otherwise it returns whether some simplified regex matches. -/
def hasPotentialPII (text : String) : Bool :=
  if !hasAtSymbol text.toList && !hasMultipleDashes text.toList
      && !hasMultipleDigits text.toList then
    false
  else
    simplifiedPatternsMatch text.toList

/-! ## Output sanitizer and redactor.

The `pilpat-mcp-security` package (`sanitizeOutput`, `redactPII`,
`validateOutput`) is not part of the shipped sources; these operations are
modelled from §4.3 of the specification. -/

/-- Tag-stripping state machine: drop every `<...>` region
(flag records whether the scan is inside a tag). -/
def stripTagsAux : Bool → List Char → List Char
  | _, [] => []
  | true, c :: cs => if c = '>' then stripTagsAux false cs else stripTagsAux true cs
  | false, c :: cs => if c = '<' then stripTagsAux true cs else c :: stripTagsAux false cs

/-- Drop control characters (code points below 32 that are not whitespace kept
for the later whitespace-collapsing pass). -/
def stripCtl (cs : List Char) : List Char :=
  cs.filter (fun c => decide (32 ≤ c.toNat) || isWsChar c)

/-- Collapse every whitespace run to a single space
(flag records whether the previous kept character was whitespace). -/
def collapseAux : Bool → List Char → List Char
  | _, [] => []
  | prevWs, c :: cs =>
    if isWsChar c then
      if prevWs then collapseAux true cs else ' ' :: collapseAux true cs
    else
      c :: collapseAux false cs

/-- Modelled from the spec: `sanitizeOutput` of the `pilpat-mcp-security`
package is not in the shipped sources.  Per §4.3 it strips HTML/markup tags,
strips control characters, collapses whitespace runs and truncates to the
maximum length; `server.ts` always calls it with `maxLength: 10000`. -/
def sanitizeOutput (t : String) : String :=
  String.mk ((collapseAux false (stripCtl (stripTagsAux false t.toList))).take 10000)

/-- Result of a post-redaction output validation. -/
structure ValidationResult where
  valid : Bool
  errors : List String
deriving DecidableEq

/-- Modelled from the spec: `validateOutput` of the `pilpat-mcp-security`
package is not in the shipped sources.  Per §4.3 it enforces the maximum
length and a non-empty, text-typed result. -/
def validateOutput (t : String) (maxLength : Nat) : ValidationResult :=
  let errs :=
    (if maxLength < t.toList.length then ["output exceeds maximum length"] else []) ++
      (if t.toList.length = 0 then ["output is empty"] else [])
  ⟨errs.isEmpty, errs⟩

/-- Options record of `redactPII`, with the category switches and placeholder
that `server.ts` passes at both call sites. -/
structure RedactPIIOptions where
  redactEmails : Bool
  redactPhones : Bool
  redactCreditCards : Bool
  redactSSN : Bool
  redactBankAccounts : Bool
  redactPESEL : Bool
  redactPolishIdCard : Bool
  redactPolishPassport : Bool
  redactPolishPhones : Bool
  placeholder : String
deriving DecidableEq

/-- Result of a full redaction pass: redacted text plus the
deduplicated list of detected category names. -/
structure RedactionResult where
  redacted : String
  detectedPII : List String
deriving DecidableEq

/-- Full SSN-like pattern at a position (`ddd-dd-dddd`); returns the matched length. -/
def matchSSN (cs : List Char) : Option Nat :=
  ((takeDigits 3 cs).bind fun r1 => (expectChar '-' r1).bind fun r2 =>
    (takeDigits 2 r2).bind fun r3 => (expectChar '-' r3).bind fun r4 =>
      takeDigits 4 r4).map (fun r => cs.length - r.length)

/-- Full credit-card-like pattern at a position (`dddd-dddd-dddd-dddd`). -/
def matchCreditCard (cs : List Char) : Option Nat :=
  ((takeDigits 4 cs).bind fun r1 => (expectChar '-' r1).bind fun r2 =>
    (takeDigits 4 r2).bind fun r3 => (expectChar '-' r3).bind fun r4 =>
      (takeDigits 4 r4).bind fun r5 => (expectChar '-' r5).bind fun r6 =>
        takeDigits 4 r6).map (fun r => cs.length - r.length)

/-- Full PESEL-like pattern at a position (11 consecutive digits). -/
def matchPESEL (cs : List Char) : Option Nat :=
  (takeDigits 11 cs).map (fun r => cs.length - r.length)

/-- Full bank-account-like pattern at a position (26 consecutive digits, NRB). -/
def matchBankAccount (cs : List Char) : Option Nat :=
  (takeDigits 26 cs).map (fun r => cs.length - r.length)

/-- Full US-phone-like pattern at a position (`ddd-ddd-dddd`). -/
def matchPhone (cs : List Char) : Option Nat :=
  ((takeDigits 3 cs).bind fun r1 => (expectChar '-' r1).bind fun r2 =>
    (takeDigits 3 r2).bind fun r3 => (expectChar '-' r3).bind fun r4 =>
      takeDigits 4 r4).map (fun r => cs.length - r.length)

/-- Full Polish-passport-like pattern at a position (two letters, seven digits). -/
def matchPolishPassport (cs : List Char) : Option Nat :=
  ((takeUppers 2 cs).bind fun r1 => takeDigits 7 r1).map (fun r => cs.length - r.length)

/-- Full Polish-identity-card-like pattern at a position (three letters, six digits). -/
def matchPolishIdCard (cs : List Char) : Option Nat :=
  ((takeUppers 3 cs).bind fun r1 => takeDigits 6 r1).map (fun r => cs.length - r.length)

/-- Full Polish-phone-like pattern at a position (`+48` then nine digits). -/
def matchPolishPhone (cs : List Char) : Option Nat :=
  ((expectChar '+' cs).bind fun r1 => (expectChar '4' r1).bind fun r2 =>
    (expectChar '8' r2).bind fun r3 => takeDigits 9 r3).map (fun r => cs.length - r.length)

/-- Full email-like pattern at a position (local part, `@`, dotted domain). -/
def matchEmail (cs : List Char) : Option Nat :=
  let loc := cs.takeWhile (fun c => c.isAlphanum || c = '.' || c = '_')
  if loc.isEmpty then none
  else
    match cs.drop loc.length with
    | '@' :: r =>
      let dom := r.takeWhile (fun c => c.isAlphanum || c = '.' || c = '-')
      if dom.isEmpty || !containsChar dom '.' then none
      else some (loc.length + 1 + dom.length)
    | _ => none

/-- Modelled from the spec: the category-specific full pattern set of
`redactPII` (§4.3: "an ordered set of category-specific textual patterns",
most specific first), restricted to the categories the options enable. -/
def enabledPatterns (o : RedactPIIOptions) : List (String × (List Char → Option Nat)) :=
  (if o.redactSSN then [("ssn", matchSSN)] else []) ++
    (if o.redactCreditCards then [("credit_card", matchCreditCard)] else []) ++
    (if o.redactBankAccounts then [("bank_account", matchBankAccount)] else []) ++
    (if o.redactPESEL then [("pesel", matchPESEL)] else []) ++
    (if o.redactPolishPassport then [("polish_passport", matchPolishPassport)] else []) ++
    (if o.redactPolishIdCard then [("polish_id_card", matchPolishIdCard)] else []) ++
    (if o.redactPolishPhones then [("polish_phone", matchPolishPhone)] else []) ++
    (if o.redactPhones then [("phone", matchPhone)] else []) ++
    (if o.redactEmails then [("email", matchEmail)] else [])

/-- Try the patterns in priority order at the current position. -/
def tryPatterns : List (String × (List Char → Option Nat)) → List Char →
    Option (String × Nat)
  | [], _ => none
  | (name, m) :: rest, cs =>
    match m cs with
    | some n => some (name, n)
    | none => tryPatterns rest cs

/-- Left-to-right redaction scan with explicit fuel (the fuel is an upper
bound on the text length, so it never runs out): each match is replaced by the
placeholder, its category recorded, and the matched span is never re-scanned
(§4.3). -/
def redactScanGo (pats : List (String × (List Char → Option Nat))) (ph : List Char) :
    Nat → List Char → List Char × List String
  | 0, _ => ([], [])
  | _ + 1, [] => ([], [])
  | fuel + 1, c :: rest =>
    match tryPatterns pats (c :: rest) with
    | some (name, n) =>
      let r := redactScanGo pats ph fuel (rest.drop (n - 1))
      (ph ++ r.1, name :: r.2)
    | none =>
      let r := redactScanGo pats ph fuel rest
      (c :: r.1, r.2)

/-- Left-to-right redaction scan over a whole text. -/
def redactScan (pats : List (String × (List Char → Option Nat))) (ph : List Char)
    (cs : List Char) : List Char × List String :=
  redactScanGo pats ph cs.length cs

/-- Modelled from the spec: `redactPII` of the `pilpat-mcp-security` package is
not in the shipped sources.  Per §4.3 each match of an enabled category pattern
is replaced with the fixed placeholder and the category name is recorded once
per text (deduplicated). -/
def redactPII (text : String) (o : RedactPIIOptions) : RedactionResult :=
  let r := redactScan (enabledPatterns o) o.placeholder.toList text.toList
  ⟨String.mk r.1, r.2.dedup⟩

/-! ## Ledger store and the idempotent debit executor.

`src/tokenConsumption.ts` (`checkBalance`, `consumeTokensWithRetry`) and
`src/tokenUtils.ts` (`formatInsufficientTokensError`) are not in the shipped
sources; the ledger store and the debit executor are modelled from §3, §4.1,
§4.2 and §6 of the specification. -/

/-- Ledger entry appended on every debit attempt that reaches the store (§3). -/
structure LedgerEntry where
  actionId : String
  userId : String
  amount : Nat
  toolName : String
  requestSummary : String
  resultSummary : String
  success : Bool
deriving DecidableEq

/-- Durable store state: per-user balances plus the append-only ledger (§3).
Balances are integers so that the no-negative-balance invariant is a theorem
rather than a typing artifact. -/
structure LedgerState where
  accounts : List (String × Int)
  ledger : List LedgerEntry
deriving DecidableEq

/-- Balance lookup in the association list; a missing account reads as 0 (§4.1). -/
def lookupBal : List (String × Int) → String → Int
  | [], _ => 0
  | (k, w) :: rest, u => if k = u then w else lookupBal rest u

/-- Current balance of a user. -/
def getBalance (s : LedgerState) (u : String) : Int :=
  lookupBal s.accounts u

/-- Balance update in the association list. -/
def setBalance : List (String × Int) → String → Int → List (String × Int)
  | [], u, v => [(u, v)]
  | (k, w) :: rest, u, v =>
    if k = u then (u, v) :: rest else (k, w) :: setBalance rest u v

/-- Result of `checkBalance`. -/
structure BalanceCheck where
  sufficient : Bool
  currentBalance : Int
deriving DecidableEq

/-- Modelled from the spec: `checkBalance` of `src/tokenConsumption.ts` is not
in the shipped sources.  Per §4.1 it reads the current balance (missing
account = 0) and reports `sufficient = currentBalance >= cost`, with no side
effects. -/
def checkBalance (s : LedgerState) (userId : String) (cost : Nat) : BalanceCheck :=
  ⟨decide ((cost : Int) ≤ getBalance s userId), getBalance s userId⟩

/-- Outcome of one debit operation. -/
inductive DebitResult where
  | applied
  | alreadyApplied
  | rejected
  | failed
deriving DecidableEq

/-- Whether the ledger already holds a `success = true` entry for this action id. -/
def hasSuccessEntry (l : List LedgerEntry) (aid : String) : Bool :=
  l.any (fun e => e.actionId == aid && e.success)

/-- Modelled from the spec: the single conditional store transaction of §4.2
step 1-2 — atomically detect a duplicate successful `actionId` (idempotent
no-op), otherwise verify `balance >= cost`, write the reduced balance and
append a successful ledger entry; an insufficient balance is rejected with the
state unchanged. -/
def tryDebit (s : LedgerState) (userId : String) (cost : Nat)
    (toolName reqS resS actionId : String) : LedgerState × DebitResult :=
  if hasSuccessEntry s.ledger actionId then
    (s, .alreadyApplied)
  else if (cost : Int) ≤ getBalance s userId then
    ({ accounts := setBalance s.accounts userId (getBalance s userId - cost),
       ledger := s.ledger ++ [⟨actionId, userId, cost, toolName, reqS, resS, true⟩] },
     .applied)
  else
    (s, .rejected)

/-- Best-effort audit entry appended when all retries exhaust (§4.2 step 4). -/
def appendFail (s : LedgerState) (userId : String) (cost : Nat)
    (toolName reqS resS actionId : String) : LedgerState :=
  { s with ledger := s.ledger ++ [⟨actionId, userId, cost, toolName, reqS, resS, false⟩] }

/-- Bounded retry loop of the debit executor: `fs` is the oracle of transient
store failures (`true` = this attempt fails before reaching the store); every
attempt reuses the same `actionId`. -/
def consumeGo (userId : String) (cost : Nat) (toolName reqS resS actionId : String) :
    Nat → List Bool → LedgerState → LedgerState × DebitResult
  | 0, _, s => (appendFail s userId cost toolName reqS resS actionId, .failed)
  | n + 1, fs, s =>
    if fs.headD false then
      consumeGo userId cost toolName reqS resS actionId n fs.tail s
    else
      tryDebit s userId cost toolName reqS resS actionId

/-- Modelled from the spec: `consumeTokensWithRetry` of
`src/tokenConsumption.ts` is not in the shipped sources.  Per §4.2 it runs the
conditional debit transaction with a bounded number of attempts (3), reusing
the same `actionId` on every retry, treats a duplicate successful `actionId`
as a success no-op, and appends a best-effort `success:false` entry when all
attempts exhaust. -/
def consumeTokensWithRetry (fs : List Bool) (s : LedgerState) (userId : String)
    (cost : Nat) (toolName reqS resS actionId : String) : LedgerState × DebitResult :=
  consumeGo userId cost toolName reqS resS actionId 3 fs s

/-- Whether the first three attempts of a failure oracle all fail transiently. -/
def allFail3 (fs : List Bool) : Bool :=
  fs.headD false && (fs.drop 1).headD false && (fs.drop 2).headD false

/-- One debit invocation in a sequence of calls against the store. -/
structure DebitCall where
  failures : List Bool
  userId : String
  cost : Nat
  toolName : String
  requestSummary : String
  resultSummary : String
  actionId : String

/-- Run a sequence of debit invocations against the store. -/
def runDebits : List DebitCall → LedgerState → LedgerState
  | [], s => s
  | c :: rest, s =>
    runDebits rest
      (consumeTokensWithRetry c.failures s c.userId c.cost c.toolName
        c.requestSummary c.resultSummary c.actionId).1

/-- Number of `success = true` ledger entries bearing a given action id. -/
def countSuccess (l : List LedgerEntry) (aid : String) : Nat :=
  (l.filter (fun e => e.actionId == aid && e.success)).length

/-! ## The priced tool pipeline, embedded from `src/server.ts`.

An invocation environment carries the authenticated-user context, the AI
binding presence and the backend query outcome; the pipeline is the handler
body of each tool (`server.ts` lines 125-296 and 323-462), a straight-line
sequence whose thrown errors are classified by the tool's catch block. -/

/-- Security metadata block of a success output (`security_applied`). -/
structure SecurityApplied where
  pii_redacted : Bool
  pii_types_found : List String
  html_sanitized : Bool
deriving DecidableEq

/-- Structured success output of a tool invocation. -/
structure SuccessOutput where
  query : String
  rag_instance : String
  security_applied : SecurityApplied
  answer : String
deriving DecidableEq

/-- Result of a tool invocation: the success output or one of the
structurally distinct error results the handlers build. -/
inductive ToolResult where
  | insufficientBalance (toolName : String) (currentBalance : Int) (cost : Nat)
  | instanceNotFound (msg : String)
  | stillIndexing (msg : String)
  | genericError (msg : String)
  | ok (out : SuccessOutput)
deriving DecidableEq

/-- Whether a tool result is an error result (`isError: true`). -/
def ToolResult.isErr : ToolResult → Bool
  | .ok _ => false
  | _ => true

/-- Modelled from the spec: `formatInsufficientTokensError` of
`src/tokenUtils.ts` is not in the shipped sources.  Per §7 it builds the
insufficient-balance result carrying the current balance and required cost. -/
def formatInsufficientTokensError (toolName : String) (currentBalance : Int)
    (cost : Nat) : ToolResult :=
  .insufficientBalance toolName currentBalance cost

/-- Error classification of the `search_fastapi_docs` catch block
(`server.ts` lines 260-295). -/
def docsClassify (m : String) : ToolResult :=
  if strOccurs "AI Search instance not found" m || strOccurs "AutoRAG instance" m then
    .instanceNotFound "AI Search instance \x27ai-search-fast_api_search\x27 not found or not ready. Please verify the instance exists in Cloudflare Dashboard and indexing is complete."
  else if strOccurs "indexing" m then
    .stillIndexing "FastAPI framework documentation is still indexing. Please try again in a few minutes."
  else
    .genericError ("Failed to search FastAPI framework documentation: " ++ m)

/-- Error classification of the `search_fastapi_examples` catch block
(`server.ts` lines 440-461): it has no still-indexing branch. -/
def examplesClassify (m : String) : ToolResult :=
  if strOccurs "AI Search instance not found" m then
    .instanceNotFound "AI Search instance \x27ai-search-fast_api_search\x27 not found. Please verify in Cloudflare Dashboard."
  else
    .genericError ("Failed to search FastAPI examples: " ++ m)

/-- Invocation environment: the authenticated-user context (`this.props`),
the `env.AI` binding presence and the backend query outcome. -/
structure InvocationEnv where
  hasUserId : Bool
  userId : String
  hasAI : Bool
  backend : Except String String

/-- Per-tool constants and call-site configuration. -/
structure ToolConfig where
  toolName : String
  ragName : String
  cost : Nat
  redactOptions : RedactPIIOptions
  classify : String → ToolResult

/-- Redaction options at the `search_fastapi_docs` call site
(`server.ts` lines 186-201). -/
def docsRedactOptions : RedactPIIOptions :=
  { redactEmails := false, redactPhones := true, redactCreditCards := true,
    redactSSN := true, redactBankAccounts := true, redactPESEL := true,
    redactPolishIdCard := true, redactPolishPassport := true,
    redactPolishPhones := true, placeholder := "[REDACTED]" }

/-- Redaction options at the `search_fastapi_examples` call site
(`server.ts` lines 380-391). -/
def examplesRedactOptions : RedactPIIOptions :=
  { redactEmails := false, redactPhones := true, redactCreditCards := true,
    redactSSN := true, redactBankAccounts := true, redactPESEL := true,
    redactPolishIdCard := true, redactPolishPassport := true,
    redactPolishPhones := true, placeholder := "[REDACTED]" }

/-- Phase 2 security processing of a raw backend answer (`server.ts` lines
166-206): sanitize always; run the full redaction only when the
`hasPotentialPII` pre-filter fires. -/
def securityPhase (o : RedactPIIOptions) (raw : String) : String × List String :=
  let clean := sanitizeOutput raw
  if hasPotentialPII clean then
    let r := redactPII clean o
    (r.redacted, r.detectedPII)
  else
    (clean, [])

/-- Outcome of one tool invocation: its result, whether the backend query was
issued, and the final ledger-store state. -/
structure Outcome where
  result : ToolResult
  backendCalled : Bool
  state : LedgerState
deriving DecidableEq

/-- The handler body shared by both priced tools (`server.ts` lines 125-296
and 323-462): user-id check, balance check with early insufficient-balance
return, AI-binding check, backend query, sanitize/redact, output validation,
idempotent debit with retry, and the structured success output; every thrown
error is classified by the tool's catch block. -/
def runPricedTool (cfg : ToolConfig) (env : InvocationEnv) (query actionId : String)
    (failures : List Bool) (s : LedgerState) : Outcome :=
  if env.hasUserId = false then
    { result := cfg.classify "User ID not found in authentication context",
      backendCalled := false, state := s }
  else
    let bc := checkBalance s env.userId cfg.cost
    if bc.sufficient = false then
      { result := formatInsufficientTokensError cfg.toolName bc.currentBalance cfg.cost,
        backendCalled := false, state := s }
    else if env.hasAI = false then
      { result := cfg.classify "Workers AI binding not configured. Add \x27ai\x27 binding to wrangler.jsonc",
        backendCalled := false, state := s }
    else
      match env.backend with
      | .error m => { result := cfg.classify m, backendCalled := true, state := s }
      | .ok raw =>
        let phase := securityPhase cfg.redactOptions raw
        let processed := phase.1
        let detectedPII := phase.2
        if (validateOutput processed 10000).valid = false then
          { result := cfg.classify ("Output validation failed: " ++
              String.intercalate ", " (validateOutput processed 10000).errors),
            backendCalled := true, state := s }
        else
          let db := consumeTokensWithRetry failures s env.userId cfg.cost cfg.toolName
            (truncTo 100 query) (truncTo 200 processed ++ "...") actionId
          match db.2 with
          | .applied =>
            { result := .ok
                { query := query, rag_instance := cfg.ragName,
                  security_applied :=
                    { pii_redacted := decide (0 < detectedPII.length),
                      pii_types_found := detectedPII, html_sanitized := true },
                  answer := processed },
              backendCalled := true, state := db.1 }
          | .alreadyApplied =>
            { result := .ok
                { query := query, rag_instance := cfg.ragName,
                  security_applied :=
                    { pii_redacted := decide (0 < detectedPII.length),
                      pii_types_found := detectedPII, html_sanitized := true },
                  answer := processed },
              backendCalled := true, state := db.1 }
          | .rejected =>
            { result := cfg.classify "DebitFailed", backendCalled := true, state := db.1 }
          | .failed =>
            { result := cfg.classify "DebitFailed", backendCalled := true, state := db.1 }

/-- Configuration of the `search_fastapi_docs` tool (`server.ts` lines 126-128). -/
def docsConfig : ToolConfig :=
  { toolName := "search_fastapi_docs", ragName := "ai-search-fast_api_search",
    cost := 3, redactOptions := docsRedactOptions, classify := docsClassify }

/-- Configuration of the `search_fastapi_examples` tool (`server.ts` lines 324-326). -/
def examplesConfig : ToolConfig :=
  { toolName := "search_fastapi_examples", ragName := "ai-search-fast_api_search",
    cost := 4, redactOptions := examplesRedactOptions, classify := examplesClassify }

/-- One invocation of the `search_fastapi_docs` tool. -/
def search_fastapi_docs (env : InvocationEnv) (query actionId : String)
    (failures : List Bool) (s : LedgerState) : Outcome :=
  runPricedTool docsConfig env query actionId failures s

/-- One invocation of the `search_fastapi_examples` tool. -/
def search_fastapi_examples (env : InvocationEnv) (query actionId : String)
    (failures : List Bool) (s : LedgerState) : Outcome :=
  runPricedTool examplesConfig env query actionId failures s

/-! ## Store-level lemmas -/

theorem lookupBal_set_self (l : List (String × Int)) (u : String) (v : Int) :
    lookupBal (setBalance l u v) u = v := by
  induction l with
  | nil => simp [setBalance, lookupBal]
  | cons kv rest ih =>
    obtain ⟨k, w⟩ := kv
    by_cases h : k = u
    · simp [setBalance, h, lookupBal]
    · simp [setBalance, h, lookupBal, ih]

theorem lookupBal_set_other (l : List (String × Int)) (u : String) (v : Int)
    (w : String) (h : w ≠ u) :
    lookupBal (setBalance l u v) w = lookupBal l w := by
  induction l with
  | nil => simp [setBalance, lookupBal, Ne.symm h]
  | cons kv rest ih =>
    obtain ⟨k, x⟩ := kv
    by_cases hk : k = u
    · subst hk
      simp [setBalance, lookupBal, Ne.symm h, ih]
    · by_cases hw : k = w
      · subst hw
        simp [setBalance, hk, lookupBal]
      · simp [setBalance, hk, lookupBal, hw, ih]

theorem consumeGo_cases (u : String) (c : Nat) (tn rq rs aid : String) (n : Nat)
    (fs : List Bool) (s : LedgerState) :
    consumeGo u c tn rq rs aid n fs s = (appendFail s u c tn rq rs aid, .failed) ∨
    consumeGo u c tn rq rs aid n fs s = tryDebit s u c tn rq rs aid := by
  induction n generalizing fs with
  | zero => exact Or.inl rfl
  | succ n ih =>
    cases h : fs.headD false with
    | true =>
      simpa only [consumeGo, h, if_true] using ih fs.tail
    | false =>
      simp only [consumeGo, h]
      exact Or.inr rfl

theorem consume_reaches (fs : List Bool) (s : LedgerState) (u : String) (c : Nat)
    (tn rq rs aid : String) (h : allFail3 fs = false) :
    consumeTokensWithRetry fs s u c tn rq rs aid = tryDebit s u c tn rq rs aid := by
  rcases fs with _ | ⟨a, _ | ⟨b, _ | ⟨c2, fs3⟩⟩⟩
  · rfl
  · cases a <;> rfl
  · cases a <;> cases b <;> rfl
  · cases a <;> cases b <;> cases c2
    all_goals first
      | rfl
      | (simp [allFail3] at h)

theorem countSuccess_eq_zero (l : List LedgerEntry) (aid : String)
    (h : hasSuccessEntry l aid = false) : countSuccess l aid = 0 := by
  induction l with
  | nil => rfl
  | cons e rest ih =>
    simp only [hasSuccessEntry, List.any_cons, Bool.or_eq_false_iff] at h
    simp only [countSuccess, List.filter_cons, h.1]
    exact ih (by simpa [hasSuccessEntry] using h.2)

theorem tryDebit_nonneg (s : LedgerState) (u : String) (c : Nat)
    (tn rq rs aid : String) (hs : ∀ x, 0 ≤ getBalance s x) (x : String) :
    0 ≤ getBalance (tryDebit s u c tn rq rs aid).1 x := by
  unfold tryDebit
  cases h0 : hasSuccessEntry s.ledger aid with
  | true => simpa using hs x
  | false =>
    by_cases h1 : (c : Int) ≤ getBalance s u
    · simp only [h0, h1, Bool.false_eq_true, if_false, if_true]
      by_cases hx : u = x
      · subst hx
        simp only [getBalance, lookupBal_set_self]
        have := hs u
        simp only [getBalance] at h1 this
        omega
      · simp only [getBalance, lookupBal_set_other _ _ _ _ (Ne.symm hx)]
        exact hs x
    · simpa [h0, h1] using hs x

theorem consume_nonneg (fs : List Bool) (s : LedgerState) (u : String) (c : Nat)
    (tn rq rs aid : String) (hs : ∀ x, 0 ≤ getBalance s x) (x : String) :
    0 ≤ getBalance (consumeTokensWithRetry fs s u c tn rq rs aid).1 x := by
  rcases consumeGo_cases u c tn rq rs aid 3 fs s with h | h
  · rw [show consumeTokensWithRetry fs s u c tn rq rs aid = _ from h]
    exact hs x
  · rw [show consumeTokensWithRetry fs s u c tn rq rs aid = _ from h]
    exact tryDebit_nonneg s u c tn rq rs aid hs x

theorem runDebits_nonneg (calls : List DebitCall) (s : LedgerState)
    (hs : ∀ x, 0 ≤ getBalance s x) (x : String) :
    0 ≤ getBalance (runDebits calls s) x := by
  induction calls generalizing s with
  | nil => exact hs x
  | cons call rest ih =>
    exact ih _ (fun y => consume_nonneg call.failures s call.userId call.cost
      call.toolName call.requestSummary call.resultSummary call.actionId hs y)

theorem consume_insufficient (fs : List Bool) (s : LedgerState) (u : String)
    (c : Nat) (tn rq rs aid : String) (hc : getBalance s u < (c : Int)) :
    (consumeTokensWithRetry fs s u c tn rq rs aid).2 ≠ .applied ∧
    ∀ w, getBalance (consumeTokensWithRetry fs s u c tn rq rs aid).1 w = getBalance s w := by
  rcases consumeGo_cases u c tn rq rs aid 3 fs s with h | h <;>
    rw [show consumeTokensWithRetry fs s u c tn rq rs aid = _ from h]
  · exact ⟨by simp, fun w => rfl⟩
  · have h1 : ¬((c : Int) ≤ getBalance s u) := not_le.mpr hc
    cases h0 : hasSuccessEntry s.ledger aid with
    | true => refine ⟨?_, ?_⟩ <;> simp [tryDebit, h0]
    | false => refine ⟨?_, ?_⟩ <;> simp [tryDebit, h0, h1]

theorem consume_ledger_mem (fs : List Bool) (s : LedgerState) (u : String)
    (c : Nat) (tn rq rs aid : String) (e : LedgerEntry)
    (he : e ∈ (consumeTokensWithRetry fs s u c tn rq rs aid).1.ledger) :
    e ∈ s.ledger ∨ e.actionId = aid := by
  rcases consumeGo_cases u c tn rq rs aid 3 fs s with h | h <;>
    rw [show consumeTokensWithRetry fs s u c tn rq rs aid = _ from h] at he
  · simp only [appendFail, List.mem_append, List.mem_singleton] at he
    rcases he with he | he
    · exact Or.inl he
    · exact Or.inr (by rw [he])
  · unfold tryDebit at he
    cases h0 : hasSuccessEntry s.ledger aid with
    | true =>
      rw [h0] at he
      exact Or.inl (by simpa using he)
    | false =>
      rw [h0] at he
      by_cases h1 : (c : Int) ≤ getBalance s u
      · simp only [Bool.false_eq_true, if_false, h1, if_true, List.mem_append,
          List.mem_singleton] at he
        rcases he with he | he
        · exact Or.inl he
        · exact Or.inr (by rw [he])
      · simp only [Bool.false_eq_true, if_false, h1] at he
        exact Or.inl he

/-- C2: invoking the debit operation twice with identical arguments
`(userId, cost, actionId)`, the second call after a prior success, reduces the
balance exactly once, produces exactly one `success:true` ledger entry for that
action id, and the duplicate call is treated as a success no-op that leaves the
store state unchanged. -/
theorem debit_idempotent_duplicate_noop (s s1 : LedgerState) (u : String) (c : Nat)
    (tn rq rs aid : String) (f1 f2 : List Bool)
    (hfresh : hasSuccessEntry s.ledger aid = false)
    (h1 : consumeTokensWithRetry f1 s u c tn rq rs aid = (s1, .applied))
    (h2 : allFail3 f2 = false) :
    consumeTokensWithRetry f2 s1 u c tn rq rs aid = (s1, .alreadyApplied) ∧
    getBalance s1 u = getBalance s u - c ∧
    countSuccess s1.ledger aid = 1 := by
  rcases consumeGo_cases u c tn rq rs aid 3 f1 s with hc | hc <;>
    rw [show consumeTokensWithRetry f1 s u c tn rq rs aid = _ from hc] at h1
  · exact absurd (congrArg Prod.snd h1) (by simp)
  · unfold tryDebit at h1
    rw [hfresh] at h1
    simp only [Bool.false_eq_true, if_false] at h1
    by_cases hbal : (c : Int) ≤ getBalance s u
    · rw [if_pos hbal] at h1
      have hs1 := congrArg Prod.fst h1
      simp only at hs1
      subst hs1
      refine ⟨?_, ?_, ?_⟩
      · rw [consume_reaches f2 _ u c tn rq rs aid h2]
        have hdup : hasSuccessEntry
            (s.ledger ++ [⟨aid, u, c, tn, rq, rs, true⟩]) aid = true := by
          simp [hasSuccessEntry]
        simp [tryDebit, hdup]
      · simp [getBalance, lookupBal_set_self]
      · have hz : countSuccess s.ledger aid = 0 := countSuccess_eq_zero _ _ hfresh
        unfold countSuccess at hz ⊢
        rw [List.filter_append, List.length_append, hz]
        simp
    · rw [if_neg hbal] at h1
      exact absurd (congrArg Prod.snd h1) (by simp)

theorem debit_idempotent_duplicate_noop_witness :
    consumeTokensWithRetry [] ⟨[("u", 7)], [⟨"a1", "u", 3, "t", "rq", "rs", true⟩]⟩
        "u" 3 "t" "rq" "rs" "a1" =
      (⟨[("u", 7)], [⟨"a1", "u", 3, "t", "rq", "rs", true⟩]⟩, .alreadyApplied) ∧
    getBalance ⟨[("u", 7)], [⟨"a1", "u", 3, "t", "rq", "rs", true⟩]⟩ "u" =
      getBalance ⟨[("u", 10)], []⟩ "u" - 3 ∧
    countSuccess (LedgerState.mk [("u", 7)] [⟨"a1", "u", 3, "t", "rq", "rs", true⟩]).ledger
      "a1" = 1 :=
  debit_idempotent_duplicate_noop ⟨[("u", 10)], []⟩
    ⟨[("u", 7)], [⟨"a1", "u", 3, "t", "rq", "rs", true⟩]⟩
    "u" 3 "t" "rq" "rs" "a1" [] [] (by decide) (by decide) (by decide)

/-- C4: for all sequences of debit calls against any store state with
non-negative balances, the balance never goes below zero; and a debit whose
cost exceeds the current balance is never applied and leaves every balance
unchanged. -/
theorem no_negative_balance (s : LedgerState) (calls : List DebitCall)
    (f : List Bool) (u v w : String) (c : Nat) (tn rq rs aid : String)
    (hs : ∀ x, 0 ≤ getBalance s x)
    (hc : getBalance s u < (c : Int)) :
    0 ≤ getBalance (runDebits calls s) v ∧
    (consumeTokensWithRetry f s u c tn rq rs aid).2 ≠ .applied ∧
    getBalance (consumeTokensWithRetry f s u c tn rq rs aid).1 w = getBalance s w :=
  ⟨runDebits_nonneg calls s hs v,
   (consume_insufficient f s u c tn rq rs aid hc).1,
   (consume_insufficient f s u c tn rq rs aid hc).2 w⟩

theorem no_negative_balance_witness :
    0 ≤ getBalance (runDebits [⟨[], "u", 5, "t", "rq", "rs", "a1"⟩] ⟨[], []⟩) "u" ∧
    (consumeTokensWithRetry [] ⟨[], []⟩ "u" 5 "t" "rq" "rs" "a1").2 ≠ .applied ∧
    getBalance (consumeTokensWithRetry [] ⟨[], []⟩ "u" 5 "t" "rq" "rs" "a1").1 "u" =
      getBalance ⟨[], []⟩ "u" :=
  no_negative_balance ⟨[], []⟩ [⟨[], "u", 5, "t", "rq", "rs", "a1"⟩] [] "u" "u" "u"
    5 "t" "rq" "rs" "a1" (fun _ => le_refl 0) (by decide)

/-! ## Pipeline-level lemmas -/

theorem docsClassify_isErr (m : String) : (docsClassify m).isErr = true := by
  unfold docsClassify
  split
  · rfl
  · split <;> rfl

theorem examplesClassify_isErr (m : String) : (examplesClassify m).isErr = true := by
  unfold examplesClassify
  split <;> rfl

theorem isErr_ne_ok (r : ToolResult) (out : SuccessOutput) (h : r.isErr = true) :
    r ≠ .ok out := by
  intro hr
  rw [hr] at h
  exact absurd h (by simp [ToolResult.isErr])

/-- Any invocation that does not reach a successfully validated backend answer
terminates in an error result with the store state untouched. -/
theorem runPricedTool_aborts (cfg : ToolConfig) (env : InvocationEnv)
    (q aid : String) (fs : List Bool) (s : LedgerState)
    (hcl : ∀ m, (cfg.classify m).isErr = true)
    (h : ∀ raw, env.backend = Except.ok raw →
      (validateOutput (securityPhase cfg.redactOptions raw).1 10000).valid = false) :
    (runPricedTool cfg env q aid fs s).result.isErr = true ∧
    (runPricedTool cfg env q aid fs s).state = s := by
  by_cases hu : env.hasUserId = false
  · simp [runPricedTool, hu, hcl]
  · by_cases hb : (checkBalance s env.userId cfg.cost).sufficient = false
    · simp [runPricedTool, hu, hb, formatInsufficientTokensError, ToolResult.isErr]
    · by_cases ha : env.hasAI = false
      · simp [runPricedTool, hu, hb, ha, hcl]
      · cases hback : env.backend with
        | error m => simp [runPricedTool, hu, hb, ha, hback, hcl]
        | ok raw => simp [runPricedTool, hu, hb, ha, hback, h raw hback, hcl]

/-- C1: for every invocation of a priced tool with an authenticated user, if
the balance check reports the balance insufficient, the invocation terminates
with the insufficient-balance error result carrying the current balance and
the required cost, the backend is not queried, and the store state (balances
and ledger) is untouched. -/
theorem insufficient_balance_short_circuits (env : InvocationEnv) (q aid : String)
    (fs : List Bool) (s : LedgerState) (hu : env.hasUserId = true) :
    ((checkBalance s env.userId 3).sufficient = false →
      search_fastapi_docs env q aid fs s =
        ⟨.insufficientBalance "search_fastapi_docs"
          (checkBalance s env.userId 3).currentBalance 3, false, s⟩) ∧
    ((checkBalance s env.userId 4).sufficient = false →
      search_fastapi_examples env q aid fs s =
        ⟨.insufficientBalance "search_fastapi_examples"
          (checkBalance s env.userId 4).currentBalance 4, false, s⟩) := by
  constructor <;> intro h <;>
    simp [search_fastapi_docs, search_fastapi_examples, runPricedTool, docsConfig,
      examplesConfig, hu, h, formatInsufficientTokensError]

theorem insufficient_balance_short_circuits_witness :
    search_fastapi_docs ⟨true, "u", true, Except.ok "hello"⟩ "q" "a1" [] ⟨[], []⟩ =
      ⟨.insufficientBalance "search_fastapi_docs" 0 3, false, ⟨[], []⟩⟩ :=
  (insufficient_balance_short_circuits ⟨true, "u", true, Except.ok "hello"⟩ "q" "a1"
    [] ⟨[], []⟩ rfl).1 (by decide)

/-- C3: for every invocation of a priced tool, if the backend query fails, or
the post-redaction output validation reports the processed text invalid, the
invocation terminates in an error result with the store state untouched: no
debit and no ledger write occur. -/
theorem abort_paths_no_debit (env : InvocationEnv) (q aid : String) (fs : List Bool)
    (s : LedgerState) (m raw : String)
    (h : env.backend = Except.error m ∨
      (env.backend = Except.ok raw ∧
        (validateOutput (securityPhase docsRedactOptions raw).1 10000).valid = false)) :
    ((search_fastapi_docs env q aid fs s).result.isErr = true ∧
      (search_fastapi_docs env q aid fs s).state = s) ∧
    ((search_fastapi_examples env q aid fs s).result.isErr = true ∧
      (search_fastapi_examples env q aid fs s).state = s) := by
  constructor
  · apply runPricedTool_aborts docsConfig env q aid fs s (fun m2 => docsClassify_isErr m2)
    intro raw2 hb2
    rcases h with h | ⟨hb, hv⟩
    · rw [h] at hb2
      exact absurd hb2 (by simp)
    · rw [hb] at hb2
      injection hb2 with hr
      subst hr
      exact hv
  · apply runPricedTool_aborts examplesConfig env q aid fs s
      (fun m2 => examplesClassify_isErr m2)
    intro raw2 hb2
    rcases h with h | ⟨hb, hv⟩
    · rw [h] at hb2
      exact absurd hb2 (by simp)
    · rw [hb] at hb2
      injection hb2 with hr
      subst hr
      exact hv

theorem abort_paths_no_debit_witness :
    ((search_fastapi_docs ⟨true, "u", true, Except.error "boom"⟩ "q" "a1" []
        ⟨[("u", 10)], []⟩).result.isErr = true ∧
      (search_fastapi_docs ⟨true, "u", true, Except.error "boom"⟩ "q" "a1" []
        ⟨[("u", 10)], []⟩).state = ⟨[("u", 10)], []⟩) ∧
    ((search_fastapi_examples ⟨true, "u", true, Except.error "boom"⟩ "q" "a1" []
        ⟨[("u", 10)], []⟩).result.isErr = true ∧
      (search_fastapi_examples ⟨true, "u", true, Except.error "boom"⟩ "q" "a1" []
        ⟨[("u", 10)], []⟩).state = ⟨[("u", 10)], []⟩) :=
  abort_paths_no_debit ⟨true, "u", true, Except.error "boom"⟩ "q" "a1" []
    ⟨[("u", 10)], []⟩ "boom" "x" (Or.inl rfl)

/-- C9 (amended): when the backend raises a still-indexing error,
`search_fastapi_docs` returns the distinct still-indexing message with the
store untouched; `search_fastapi_examples` has no still-indexing branch and
returns the generic failure message (which merely embeds the raw backend error
text), also with the store untouched and no debit. -/
theorem still_indexing_handling (env : InvocationEnv) (q aid : String)
    (fs : List Bool) (s : LedgerState) (m : String)
    (hu : env.hasUserId = true) (hai : env.hasAI = true)
    (hb : env.backend = Except.error m)
    (hidx : strOccurs "indexing" m = true)
    (hnf1 : strOccurs "AI Search instance not found" m = false)
    (hnf2 : strOccurs "AutoRAG instance" m = false) :
    ((checkBalance s env.userId 3).sufficient = true →
      search_fastapi_docs env q aid fs s =
        ⟨.stillIndexing "FastAPI framework documentation is still indexing. Please try again in a few minutes.",
          true, s⟩) ∧
    ((checkBalance s env.userId 4).sufficient = true →
      search_fastapi_examples env q aid fs s =
        ⟨.genericError ("Failed to search FastAPI examples: " ++ m), true, s⟩) := by
  constructor <;> intro hsuf <;>
    simp [search_fastapi_docs, search_fastapi_examples, runPricedTool, docsConfig,
      examplesConfig, docsClassify, examplesClassify, hu, hai, hb, hsuf, hidx,
      hnf1, hnf2]

theorem still_indexing_handling_witness :
    search_fastapi_docs ⟨true, "u", true, Except.error "still indexing"⟩ "q" "a1" []
        ⟨[("u", 10)], []⟩ =
      ⟨.stillIndexing "FastAPI framework documentation is still indexing. Please try again in a few minutes.",
        true, ⟨[("u", 10)], []⟩⟩ :=
  (still_indexing_handling ⟨true, "u", true, Except.error "still indexing"⟩ "q" "a1"
    [] ⟨[("u", 10)], []⟩ "still indexing" rfl rfl rfl (by decide) (by decide)
    (by decide)).1 (by decide)

/-- C9 counterexample: a still-indexing backend error in
`search_fastapi_examples` is not mapped to a distinct still-indexing result;
it falls through to the generic failure message. -/
theorem examples_still_indexing_not_distinct :
    (search_fastapi_examples ⟨true, "u", true, Except.error "still indexing"⟩ "q" "a1"
        [] ⟨[("u", 10)], []⟩).result =
      .genericError "Failed to search FastAPI examples: still indexing" := by
  decide

/-- The final store state of an invocation is either untouched or produced by
the debit executor called with the invocation's own `actionId`. -/
theorem runPricedTool_state_cases (cfg : ToolConfig) (env : InvocationEnv)
    (q aid : String) (fs : List Bool) (s : LedgerState) :
    (runPricedTool cfg env q aid fs s).state = s ∨
    ∃ u c rq rs, (runPricedTool cfg env q aid fs s).state =
      (consumeTokensWithRetry fs s u c cfg.toolName rq rs aid).1 := by
  by_cases hu : env.hasUserId = false
  · left
    simp [runPricedTool, hu]
  · by_cases hb : (checkBalance s env.userId cfg.cost).sufficient = false
    · left
      simp [runPricedTool, hu, hb]
    · by_cases ha : env.hasAI = false
      · left
        simp [runPricedTool, hu, hb, ha]
      · cases hback : env.backend with
        | error m =>
          left
          simp [runPricedTool, hu, hb, ha, hback]
        | ok raw =>
          by_cases hv : (validateOutput (securityPhase cfg.redactOptions raw).1
              10000).valid = false
          · left
            simp [runPricedTool, hu, hb, ha, hback, hv]
          · right
            refine ⟨env.userId, cfg.cost, truncTo 100 q,
              truncTo 200 (securityPhase cfg.redactOptions raw).1 ++ "...", ?_⟩
            rcases hdb : (consumeTokensWithRetry fs s env.userId cfg.cost cfg.toolName
                (truncTo 100 q) (truncTo 200 (securityPhase cfg.redactOptions raw).1
                  ++ "...") aid).2 <;>
              simp [runPricedTool, hu, hb, ha, hback, hv, hdb]

/-- C7: every ledger entry an invocation of a priced tool appends is keyed by
that invocation's single `actionId`: any entry of the final ledger either was
already present or carries the invocation's `actionId`, regardless of how many
internal retries the debit executor performed. -/
theorem one_action_id_per_invocation (env : InvocationEnv) (q aid : String)
    (fs : List Bool) (s : LedgerState) (e : LedgerEntry)
    (he : e ∈ (search_fastapi_docs env q aid fs s).state.ledger ∨
      e ∈ (search_fastapi_examples env q aid fs s).state.ledger) :
    e ∈ s.ledger ∨ e.actionId = aid := by
  rcases he with he | he
  · simp only [search_fastapi_docs] at he
    rcases runPricedTool_state_cases docsConfig env q aid fs s with h | ⟨u, c, rq, rs, h⟩
    · rw [h] at he
      exact Or.inl he
    · rw [h] at he
      exact consume_ledger_mem _ _ _ _ _ _ _ _ _ he
  · simp only [search_fastapi_examples] at he
    rcases runPricedTool_state_cases examplesConfig env q aid fs s with h | ⟨u, c, rq, rs, h⟩
    · rw [h] at he
      exact Or.inl he
    · rw [h] at he
      exact consume_ledger_mem _ _ _ _ _ _ _ _ _ he

theorem one_action_id_per_invocation_witness :
    (⟨"a1", "u", 3, "search_fastapi_docs", "q", "hello...", true⟩ : LedgerEntry) ∈
      (LedgerState.mk [("u", 10)] []).ledger ∨
    (⟨"a1", "u", 3, "search_fastapi_docs", "q", "hello...", true⟩ : LedgerEntry).actionId
      = "a1" :=
  one_action_id_per_invocation ⟨true, "u", true, Except.ok "hello"⟩ "q" "a1" []
    ⟨[("u", 10)], []⟩ ⟨"a1", "u", 3, "search_fastapi_docs", "q", "hello...", true⟩
    (Or.inl (by decide))

/-- A successful invocation result always carries the security-processed
backend answer together with its detected-category metadata. -/
theorem runPricedTool_ok_answer (cfg : ToolConfig) (env : InvocationEnv)
    (q aid : String) (fs : List Bool) (s : LedgerState) (out : SuccessOutput)
    (hok : (runPricedTool cfg env q aid fs s).result = .ok out)
    (hcl : ∀ m, (cfg.classify m).isErr = true) :
    ∃ raw, env.backend = Except.ok raw ∧
      out.answer = (securityPhase cfg.redactOptions raw).1 ∧
      out.security_applied.pii_types_found = (securityPhase cfg.redactOptions raw).2 ∧
      out.security_applied.pii_redacted =
        decide (0 < (securityPhase cfg.redactOptions raw).2.length) := by
  by_cases hu : env.hasUserId = false
  · simp only [runPricedTool, hu] at hok
    simp at hok
    exact absurd hok (isErr_ne_ok _ out (hcl _))
  · by_cases hb : (checkBalance s env.userId cfg.cost).sufficient = false
    · simp [runPricedTool, hu, hb, formatInsufficientTokensError] at hok
    · by_cases ha : env.hasAI = false
      · simp only [runPricedTool, hu, hb, ha] at hok
        simp [hu, hb] at hok
        exact absurd hok (isErr_ne_ok _ out (hcl _))
      · cases hback : env.backend with
        | error m =>
          simp [runPricedTool, hu, hb, ha, hback] at hok
          exact absurd hok (isErr_ne_ok _ out (hcl _))
        | ok raw =>
          by_cases hv : (validateOutput (securityPhase cfg.redactOptions raw).1
              10000).valid = false
          · simp [runPricedTool, hu, hb, ha, hback, hv] at hok
            exact absurd hok (isErr_ne_ok _ out (hcl _))
          · rcases hdb : (consumeTokensWithRetry fs s env.userId cfg.cost cfg.toolName
                (truncTo 100 q) (truncTo 200 (securityPhase cfg.redactOptions raw).1
                  ++ "...") aid).2 <;>
              simp [runPricedTool, hu, hb, ha, hback, hv, hdb] at hok
            · exact ⟨raw, rfl, by rw [← hok], by rw [← hok], by rw [← hok]⟩
            · exact ⟨raw, rfl, by rw [← hok], by rw [← hok], by rw [← hok]⟩
            · exact absurd hok (isErr_ne_ok _ out (hcl _))
            · exact absurd hok (isErr_ne_ok _ out (hcl _))

/-- C8: when the `hasPotentialPII` pre-filter reports the sanitized text clean,
the full redaction scan is skipped — the security phase returns the sanitized
text unchanged with no detected categories — and any success output of either
priced tool then carries that unchanged text with `pii_redacted = false` and
`pii_types_found = []`. -/
theorem prefilter_skip_returns_clean (env : InvocationEnv) (q aid : String)
    (fs : List Bool) (s : LedgerState) (raw : String) (out : SuccessOutput)
    (hb : env.backend = Except.ok raw)
    (hp : hasPotentialPII (sanitizeOutput raw) = false) :
    securityPhase docsRedactOptions raw = (sanitizeOutput raw, []) ∧
    ((search_fastapi_docs env q aid fs s).result = .ok out →
      out.answer = sanitizeOutput raw ∧
      out.security_applied.pii_redacted = false ∧
      out.security_applied.pii_types_found = []) ∧
    ((search_fastapi_examples env q aid fs s).result = .ok out →
      out.answer = sanitizeOutput raw ∧
      out.security_applied.pii_redacted = false ∧
      out.security_applied.pii_types_found = []) := by
  have hsec : securityPhase docsRedactOptions raw = (sanitizeOutput raw, []) := by
    simp [securityPhase, hp]
  refine ⟨hsec, ?_, ?_⟩
  · intro hok
    obtain ⟨raw2, hb2, h1, h2, h3⟩ := runPricedTool_ok_answer docsConfig env q aid fs s
      out hok (fun m2 => docsClassify_isErr m2)
    rw [hb] at hb2
    injection hb2 with hr
    subst hr
    simp only [docsConfig] at h1 h2 h3
    simp only [hsec] at h1 h2 h3
    simp at h1 h2 h3
    exact ⟨h1, h3, h2⟩
  · intro hok
    obtain ⟨raw2, hb2, h1, h2, h3⟩ := runPricedTool_ok_answer examplesConfig env q aid fs s
      out hok (fun m2 => examplesClassify_isErr m2)
    rw [hb] at hb2
    injection hb2 with hr
    subst hr
    simp only [examplesConfig] at h1 h2 h3
    have hsec2 : securityPhase examplesRedactOptions raw = (sanitizeOutput raw, []) := hsec
    simp only [hsec2] at h1 h2 h3
    simp at h1 h2 h3
    exact ⟨h1, h3, h2⟩

theorem prefilter_skip_returns_clean_witness :
    securityPhase docsRedactOptions "hello" = (sanitizeOutput "hello", []) ∧
    ((search_fastapi_docs ⟨true, "u", true, Except.ok "hello"⟩ "q" "a1" []
        ⟨[("u", 10)], []⟩).result =
      .ok ⟨"q", "ai-search-fast_api_search", ⟨false, [], true⟩, "hello"⟩ →
      (SuccessOutput.mk "q" "ai-search-fast_api_search" ⟨false, [], true⟩ "hello").answer
          = sanitizeOutput "hello" ∧
      (SuccessOutput.mk "q" "ai-search-fast_api_search" ⟨false, [], true⟩
        "hello").security_applied.pii_redacted = false ∧
      (SuccessOutput.mk "q" "ai-search-fast_api_search" ⟨false, [], true⟩
        "hello").security_applied.pii_types_found = []) ∧
    ((search_fastapi_examples ⟨true, "u", true, Except.ok "hello"⟩ "q" "a1" []
        ⟨[("u", 10)], []⟩).result =
      .ok ⟨"q", "ai-search-fast_api_search", ⟨false, [], true⟩, "hello"⟩ →
      (SuccessOutput.mk "q" "ai-search-fast_api_search" ⟨false, [], true⟩ "hello").answer
          = sanitizeOutput "hello" ∧
      (SuccessOutput.mk "q" "ai-search-fast_api_search" ⟨false, [], true⟩
        "hello").security_applied.pii_redacted = false ∧
      (SuccessOutput.mk "q" "ai-search-fast_api_search" ⟨false, [], true⟩
        "hello").security_applied.pii_types_found = []) :=
  prefilter_skip_returns_clean ⟨true, "u", true, Except.ok "hello"⟩ "q" "a1" []
    ⟨[("u", 10)], []⟩ "hello"
    ⟨"q", "ai-search-fast_api_search", ⟨false, [], true⟩, "hello"⟩ rfl (by decide)

theorem tryPatterns_name_mem (pats : List (String × (List Char → Option Nat)))
    (cs : List Char) (name : String) (n : Nat)
    (h : tryPatterns pats cs = some (name, n)) : name ∈ pats.map Prod.fst := by
  induction pats with
  | nil => exact absurd h (by simp [tryPatterns])
  | cons p rest ih =>
    obtain ⟨nm, m⟩ := p
    simp only [tryPatterns] at h
    cases hm : m cs with
    | some k =>
      rw [hm] at h
      simp only [Option.some.injEq, Prod.mk.injEq] at h
      simp [h.1]
    | none =>
      rw [hm] at h
      simp [ih h]

theorem redactScanGo_cats_subset (pats : List (String × (List Char → Option Nat)))
    (ph : List Char) (fuel : Nat) (cs : List Char) (name : String)
    (h : name ∈ (redactScanGo pats ph fuel cs).2) : name ∈ pats.map Prod.fst := by
  induction fuel generalizing cs with
  | zero => simp [redactScanGo] at h
  | succ fuel ih =>
    cases cs with
    | nil => simp [redactScanGo] at h
    | cons c rest =>
      simp only [redactScanGo] at h
      cases ht : tryPatterns pats (c :: rest) with
      | some pr =>
        obtain ⟨nm, n⟩ := pr
        rw [ht] at h
        simp only [List.mem_cons] at h
        rcases h with h | h
        · subst h
          exact tryPatterns_name_mem pats (c :: rest) name n ht
        · exact ih _ h
      | none =>
        rw [ht] at h
        exact ih _ h

theorem redactPII_cats_subset (t : String) (o : RedactPIIOptions) (name : String)
    (h : name ∈ (redactPII t o).detectedPII) :
    name ∈ (enabledPatterns o).map Prod.fst := by
  simp only [redactPII, redactScan] at h
  rw [List.mem_dedup] at h
  exact redactScanGo_cats_subset _ _ _ _ _ h

/-- C10 (amended): both priced tools call `redactPII` with
`redactEmails = false` (the two call-site option records are identical), so the
email category pattern is never applied: no text ever yields the category
`email`, and an email-bearing text whose only structural trigger is the `@`
sign still reaches the simplified pattern stage of the pre-filter (the `@` is a
quick-heuristic trigger).  An email-like substring is not guaranteed to pass
through unredacted — another enabled category pattern may match inside it (see
the counterexample) — but it survives intact when no other enabled pattern
matches within it: on a concrete text that also carries a PESEL-like digit run,
the full scan redacts the digits and leaves the email address unchanged. -/
theorem emails_never_redacted (t : String) (h : containsChar t.toList '@' = true) :
    docsRedactOptions.redactEmails = false ∧
    examplesRedactOptions.redactEmails = false ∧
    docsRedactOptions = examplesRedactOptions ∧
    hasPotentialPII t = simplifiedPatternsMatch t.toList ∧
    "email" ∉ (redactPII t docsRedactOptions).detectedPII ∧
    redactPII "admin@example.com or 12345678901" docsRedactOptions =
      ⟨"admin@example.com or [REDACTED]", ["pesel"]⟩ := by
  refine ⟨rfl, rfl, rfl, ?_, ?_, by decide⟩
  · have h2 : hasAtSymbol t.toList = true := h
    unfold hasPotentialPII
    rw [h2]
    simp
  · intro hmem
    have hsub := redactPII_cats_subset t docsRedactOptions "email" hmem
    exact absurd hsub (by decide)

theorem emails_never_redacted_witness :
    docsRedactOptions.redactEmails = false ∧
    examplesRedactOptions.redactEmails = false ∧
    docsRedactOptions = examplesRedactOptions ∧
    hasPotentialPII "admin@example.com or 12345678901" =
      simplifiedPatternsMatch "admin@example.com or 12345678901".toList ∧
    "email" ∉ (redactPII "admin@example.com or 12345678901" docsRedactOptions).detectedPII ∧
    redactPII "admin@example.com or 12345678901" docsRedactOptions =
      ⟨"admin@example.com or [REDACTED]", ["pesel"]⟩ :=
  emails_never_redacted "admin@example.com or 12345678901" (by decide)

/-- C5: the claim that the pre-filter never produces a false negative relative
to the full pattern set fails on the code: on `"call me at 555-123-4567"` the
full pattern set detects the category `phone` (and would redact the span), yet
`hasPotentialPII` returns `false` — the text has no `@`, no double dash, and
exactly 10 digit characters, which does not exceed the `> 10` digit threshold,
so the quick heuristics bail out before any pattern runs. -/
theorem prefilter_false_negative_on_phone :
    hasPotentialPII "call me at 555-123-4567" = false ∧
    (redactPII "call me at 555-123-4567" docsRedactOptions).detectedPII = ["phone"] ∧
    (redactPII "call me at 555-123-4567" docsRedactOptions).redacted =
      "call me at [REDACTED]" := by
  exact ⟨by decide, by decide, by decide⟩

/-- C6: Scenario D fails on the code: for backend answer
`"call me at 555-123-4567"` the pre-filter returns `false`, the full scan is
skipped, and the success output carries the phone number unredacted with no
`phone` category reported — even though the full pattern set would replace the
span with the placeholder and report `phone`. -/
theorem scenario_d_not_redacted :
    (search_fastapi_docs ⟨true, "u", true, Except.ok "call me at 555-123-4567"⟩ "q"
        "a1" [] ⟨[("u", 10)], []⟩).result =
      .ok ⟨"q", "ai-search-fast_api_search", ⟨false, [], true⟩,
        "call me at 555-123-4567"⟩ ∧
    (redactPII "call me at 555-123-4567" docsRedactOptions).redacted =
      "call me at [REDACTED]" ∧
    (redactPII "call me at 555-123-4567" docsRedactOptions).detectedPII = ["phone"] := by
  exact ⟨by decide, by decide, by decide⟩

/-- C10 counterexample: the original claim's universal clause — every input
containing an email-like substring has the email text pass through to the
answer unredacted — is false: `"ABC123456@example.com"` is email-like (the
email pattern matches the whole 21-character text), yet with the tools'
options the Polish-identity-card pattern matches inside the local part and the
redaction replaces it, mangling the email address. -/
theorem email_not_always_passed_through :
    matchEmail "ABC123456@example.com".toList = some 21 ∧
    redactPII "ABC123456@example.com" docsRedactOptions =
      ⟨"[REDACTED]@example.com", ["polish_id_card"]⟩ := by
  exact ⟨by decide, by decide⟩
